import Mathlib

/-!
Shallow embedding of the deterministic market-replay simulator and the
genetic strategy optimizer of the polymarket-btc-1h repository.

Numbers are modelled as exact rationals (JavaScript arithmetic is replayed
symbolically); transcendental library calls (Math.sqrt inside the Sharpe
computation, Math.log1p inside the fitness bonus) are threaded through as
explicit function parameters, and JavaScript Infinity in the profit factor
is modelled as the `none` case of an `Option`.  Ambient randomness
(Math.random) is modelled as an explicit stream of draws.
-/

namespace PB

/-- Market side, from `"UP" | "DOWN"` in backtest/types.ts. -/
inductive Side where
  | UP
  | DOWN
deriving DecidableEq

/-- Exit reasons, from `ExitReason` in backtest/types.ts. -/
inductive ExitReason where
  | PROFIT_TARGET
  | STOP_LOSS
  | MARKET_RESOLVED
  | TIME_EXIT
deriving DecidableEq

/-- Historical price tick, from `PriceTick` in backtest/types.ts. -/
structure PriceTick where
  timestamp : ℚ
  tokenId : String
  marketSlug : String
  bestBid : ℚ
  bestAsk : ℚ
  midPrice : ℚ
deriving DecidableEq

/-- Market for replay, from `HistoricalMarket` in backtest/types.ts.
`endDateMs` stands for `endDate.getTime()`. -/
structure HistoricalMarket where
  slug : String
  question : String
  startDateMs : ℚ
  endDateMs : ℚ
  upTokenId : String
  downTokenId : String
  outcome : Option Side
  priceTicks : List PriceTick
deriving DecidableEq

/-- Configuration for a single backtest run, from `BacktestConfig` in
backtest/types.ts (the date-range and risk-mode fields are never read by
the engine and are omitted). -/
structure BacktestConfig where
  entryThreshold : ℚ
  maxEntryPrice : ℚ
  stopLoss : ℚ
  maxSpread : ℚ
  timeWindowMs : ℚ
  profitTarget : ℚ
  startingBalance : ℚ
  slippage : ℚ
  compoundLimit : ℚ
  baseBalance : ℚ
deriving DecidableEq

/-- Simulated position during backtest, from `SimulatedPosition`. -/
structure SimulatedPosition where
  tokenId : String
  marketSlug : String
  side : Side
  shares : ℚ
  entryPrice : ℚ
  entryTimestamp : ℚ
deriving DecidableEq

/-- Single trade result, from `BacktestTrade`. -/
structure BacktestTrade where
  marketSlug : String
  tokenId : String
  side : Side
  entryPrice : ℚ
  exitPrice : ℚ
  shares : ℚ
  entryTimestamp : ℚ
  exitTimestamp : ℚ
  exitReason : ExitReason
  pnl : ℚ
deriving DecidableEq

/-- Equity curve point, from the `EquityPoint` interface in engine.ts. -/
structure EquityPoint where
  timestamp : ℚ
  balance : ℚ
deriving DecidableEq

/-- Drawdown curve point, from the `DrawdownPoint` interface in engine.ts. -/
structure DrawdownPoint where
  timestamp : ℚ
  drawdown : ℚ
deriving DecidableEq

/-- Performance metrics, from `PerformanceMetrics` in backtest/types.ts.
`profitFactor = none` models the JavaScript value `Infinity`. -/
structure PerformanceMetrics where
  totalTrades : ℕ
  wins : ℕ
  losses : ℕ
  winRate : ℚ
  totalPnL : ℚ
  maxDrawdown : ℚ
  maxDrawdownPercent : ℚ
  sharpeRatio : ℚ
  profitFactor : Option ℚ
  avgWin : ℚ
  avgLoss : ℚ
  avgTradeReturn : ℚ
  maxConsecutiveWins : ℕ
  maxConsecutiveLosses : ℕ
  expectancy : ℚ
  returnOnCapital : ℚ
deriving DecidableEq

/-- Full backtest result, from `BacktestResult` in backtest/types.ts. -/
structure BacktestResult where
  config : BacktestConfig
  metrics : PerformanceMetrics
  trades : List BacktestTrade
  equityCurve : List EquityPoint
  drawdownCurve : List DrawdownPoint
  savedProfit : ℚ
  finalBalance : ℚ

/-- Mutable state of `BacktestEngine` in engine.ts: the private fields
`balance`, `savedProfit`, `position`, `trades`, `equityCurve`,
`peakBalance`, `lastTrade`, `currentMarket`, together with the local
`expiredMarkets` set of the `run` loop. -/
structure EngineState where
  balance : ℚ
  savedProfit : ℚ
  position : Option SimulatedPosition
  trades : List BacktestTrade
  equityCurve : List EquityPoint
  peakBalance : ℚ
  lastTrade : Option BacktestTrade
  currentMarket : Option HistoricalMarket
  expiredMarkets : List String

/-- `checkCompoundLimit` from engine.ts. -/
def checkCompoundLimit (config : BacktestConfig) (s : EngineState) : EngineState :=
  if config.compoundLimit ≤ 0 then s
  else if s.balance ≤ config.compoundLimit then s
  else
    let profit := s.balance - config.baseBalance
    { s with savedProfit := s.savedProfit + profit, balance := config.baseBalance }

/-- `executeExit` from engine.ts: close the open position at `exitPrice`
(slippage applied for stop-loss exits), record the trade and equity point,
update the peak, clear the position and apply the compound rule. -/
def executeExit (config : BacktestConfig) (exitPrice : ℚ) (exitTimestamp : ℚ)
    (exitReason : ExitReason) (s : EngineState) : EngineState :=
  match s.position with
  | none => s
  | some pos =>
    let finalExitPrice :=
      if exitReason = ExitReason.STOP_LOSS then
        max (exitPrice * (1 - config.slippage)) 0.01
      else exitPrice
    let pnl := (finalExitPrice - pos.entryPrice) * pos.shares
    let trade : BacktestTrade :=
      { marketSlug := pos.marketSlug
        tokenId := pos.tokenId
        side := pos.side
        entryPrice := pos.entryPrice
        exitPrice := finalExitPrice
        shares := pos.shares
        entryTimestamp := pos.entryTimestamp
        exitTimestamp := exitTimestamp
        exitReason := exitReason
        pnl := pnl }
    let proceeds := finalExitPrice * pos.shares
    let s' :=
      { s with
        trades := s.trades ++ [trade]
        lastTrade := some trade
        balance := proceeds
        equityCurve := s.equityCurve ++ [{ timestamp := exitTimestamp, balance := proceeds }]
        peakBalance := if s.peakBalance < proceeds then proceeds else s.peakBalance
        position := none }
    checkCompoundLimit config s'

/-- `checkStopLoss` from engine.ts. -/
def checkStopLoss (config : BacktestConfig) (tick : PriceTick) (s : EngineState) :
    EngineState :=
  match s.position with
  | none => s
  | some _ =>
    if tick.bestBid ≤ config.stopLoss then
      executeExit config tick.bestBid tick.timestamp ExitReason.STOP_LOSS s
    else s

/-- `executeEntry` from engine.ts. -/
def executeEntry (config : BacktestConfig) (tick : PriceTick)
    (market : HistoricalMarket) (side : Side) (s : EngineState) : EngineState :=
  let entryPrice := min (tick.bestAsk * (1 + config.slippage)) 0.99
  let shares := s.balance / entryPrice
  { s with
    position := some
      { tokenId := tick.tokenId
        marketSlug := market.slug
        side := side
        shares := shares
        entryPrice := entryPrice
        entryTimestamp := tick.timestamp }
    balance := 0 }

/-- `checkEntry` from engine.ts: time-window, spread, price-band,
profit-target and opposite-side checks before entering. -/
def checkEntry (config : BacktestConfig) (tick : PriceTick)
    (market : HistoricalMarket) (s : EngineState) : EngineState :=
  let timeRemaining := market.endDateMs - tick.timestamp
  if timeRemaining ≤ 0 ∨ config.timeWindowMs < timeRemaining then s
  else
    let side := if tick.tokenId = market.upTokenId then Side.UP else Side.DOWN
    let spread := tick.bestAsk - tick.bestBid
    if config.maxSpread < spread then s
    else if tick.bestAsk < config.entryThreshold ∨ config.maxEntryPrice < tick.bestAsk then s
    else if config.profitTarget ≤ tick.bestAsk then s
    else if (match s.lastTrade with
             | some lt =>
               decide (lt.marketSlug = market.slug) && decide (lt.side = side) && decide (0 < lt.pnl)
             | none => false) then s
    else executeEntry config tick market side s

/-- `processTick` from engine.ts: with an open position on the tick's
token, check the profit target first, then the stop-loss; with no
position and at least one unit of balance, check entry conditions. -/
def processTick (config : BacktestConfig) (tick : PriceTick)
    (market : HistoricalMarket) (s : EngineState) : EngineState :=
  match s.position with
  | some pos =>
    if pos.tokenId = tick.tokenId then
      if config.profitTarget ≤ tick.bestBid then
        executeExit config config.profitTarget tick.timestamp ExitReason.PROFIT_TARGET s
      else checkStopLoss config tick s
    else s
  | none =>
    if 1 ≤ s.balance then checkEntry config tick market s else s

/-- `closePositionAtExpiry` from engine.ts: resolve a forced closure at
`profitTarget` when the recorded outcome equals the held side, at `0.01`
when it is the opposite side, and at `profitTarget` (assumed win) when the
outcome is unknown. -/
def closePositionAtExpiry (config : BacktestConfig) (market : HistoricalMarket)
    (s : EngineState) : EngineState :=
  match s.position with
  | none => s
  | some pos =>
    let exitPrice :=
      match market.outcome with
      | some o => if o = pos.side then config.profitTarget else 0.01
      | none => config.profitTarget
    executeExit config exitPrice market.endDateMs ExitReason.MARKET_RESOLVED s

/-- The `marketMap` lookup of `run`: a JavaScript `Map` built by inserting
every market keyed by slug, so a duplicated slug keeps the last insertion. -/
def marketLookup (markets : List HistoricalMarket) (slug : String) :
    Option HistoricalMarket :=
  markets.reverse.find? (fun m => m.slug = slug)

/-- The first block of the tick loop in `BacktestEngine.run`: if the open
position's market has reached its end time, force-close it and mark that
market expired. -/
def expireOpenPosition (config : BacktestConfig) (markets : List HistoricalMarket)
    (s : EngineState) (tick : PriceTick) : EngineState :=
  match s.position with
  | some pos =>
    if pos.marketSlug ∈ s.expiredMarkets then s
    else
      match marketLookup markets pos.marketSlug with
      | some pm =>
        if pm.endDateMs ≤ tick.timestamp then
          let s' := closePositionAtExpiry config pm s
          { s' with expiredMarkets := pm.slug :: s'.expiredMarkets }
        else s
      | none => s
  | none => s

/-- One iteration of the tick loop in `BacktestEngine.run`: expiry check
for the open position's market, skipping of expired markets, expiry
marking for the tick's own market, then `processTick`. -/
def stepTick (config : BacktestConfig) (markets : List HistoricalMarket)
    (s : EngineState) (tm : PriceTick × HistoricalMarket) : EngineState :=
  let tick := tm.1
  let market := tm.2
  let s1 := expireOpenPosition config markets s tick
  if market.slug ∈ s1.expiredMarkets then s1
  else if market.endDateMs ≤ tick.timestamp then
    let s2 :=
      match s1.position with
      | some pos =>
        if pos.marketSlug = market.slug then closePositionAtExpiry config market s1
        else s1
      | none => s1
    { s2 with expiredMarkets := market.slug :: s2.expiredMarkets }
  else
    processTick config tick market { s1 with currentMarket := some market }

/-- Gross profit of a trade log: the sum of the winning trades' PnL, as
computed inside `calculateMetrics`. -/
def grossProfit (trades : List BacktestTrade) : ℚ :=
  ((trades.filter (fun t => decide (0 < t.pnl))).map (fun t => t.pnl)).sum

/-- Gross loss of a trade log: the absolute sum of the non-winning trades'
PnL, as computed inside `calculateMetrics`. -/
def grossLoss (trades : List BacktestTrade) : ℚ :=
  |((trades.filter (fun t => decide (t.pnl ≤ 0))).map (fun t => t.pnl)).sum|

/-- The scan of `calculateConsecutive` in engine.ts. -/
def consecutiveAux : ℕ → ℕ → ℕ → ℕ → List BacktestTrade → ℕ × ℕ
  | maxW, maxL, _, _, [] => (maxW, maxL)
  | maxW, maxL, curW, curL, t :: rest =>
    if 0 < t.pnl then
      let curW' := curW + 1
      consecutiveAux (max maxW curW') maxL curW' 0 rest
    else
      let curL' := curL + 1
      consecutiveAux maxW (max maxL curL') 0 curL' rest

/-- `calculateConsecutive` from engine.ts. -/
def calculateConsecutive (trades : List BacktestTrade) : ℕ × ℕ :=
  consecutiveAux 0 0 0 0 trades

/-- The scan of `calculateMaxDrawdown` in engine.ts: running peak seeded
at the starting balance, recording the largest peak-to-trough drop. -/
def maxDrawdownAux : ℚ → ℚ → ℚ → List EquityPoint → ℚ × ℚ
  | _, maxDd, maxDdPct, [] => (maxDd, maxDdPct)
  | peak, maxDd, maxDdPct, p :: rest =>
    let peak' := if peak < p.balance then p.balance else peak
    let drawdown := peak' - p.balance
    let ddPct := if 0 < peak' then drawdown / peak' else 0
    if maxDd < drawdown then maxDrawdownAux peak' drawdown ddPct rest
    else maxDrawdownAux peak' maxDd maxDdPct rest

/-- `calculateMaxDrawdown` from engine.ts. -/
def calculateMaxDrawdown (config : BacktestConfig) (equityCurve : List EquityPoint) :
    ℚ × ℚ :=
  if equityCurve = [] then (0, 0)
  else maxDrawdownAux config.startingBalance 0 0 equityCurve

/-- The scan of `calculateDrawdownCurve` in engine.ts. -/
def drawdownCurveAux : ℚ → List EquityPoint → List DrawdownPoint
  | _, [] => []
  | peak, p :: rest =>
    let peak' := if peak < p.balance then p.balance else peak
    let dd := if 0 < peak' then (peak' - p.balance) / peak' else 0
    { timestamp := p.timestamp, drawdown := dd } :: drawdownCurveAux peak' rest

/-- `calculateDrawdownCurve` from engine.ts. -/
def calculateDrawdownCurve (config : BacktestConfig) (equityCurve : List EquityPoint) :
    List DrawdownPoint :=
  if equityCurve = [] then []
  else drawdownCurveAux config.startingBalance equityCurve

/-- `calculateMetrics` from engine.ts.  `sqrtQ` stands for the
floating-point `Math.sqrt` used by the Sharpe computation. -/
def calculateMetrics (sqrtQ : ℚ → ℚ) (config : BacktestConfig)
    (trades : List BacktestTrade) (equityCurve : List EquityPoint) :
    PerformanceMetrics :=
  let wins := trades.filter (fun t => decide (0 < t.pnl))
  let losses := trades.filter (fun t => decide (t.pnl ≤ 0))
  let totalPnL := (trades.map (fun t => t.pnl)).sum
  let avgWin := if 0 < wins.length then ((wins.map (fun t => t.pnl)).sum) / wins.length else 0
  let avgLoss := if 0 < losses.length then |((losses.map (fun t => t.pnl)).sum) / losses.length| else 0
  let winRate := if 0 < trades.length then (wins.length : ℚ) / trades.length else 0
  let dd := calculateMaxDrawdown config equityCurve
  let returns := trades.map (fun t => t.pnl / config.startingBalance)
  let avgReturn := if 0 < returns.length then returns.sum / returns.length else 0
  let stdDev :=
    if 0 < returns.length then
      sqrtQ (((returns.map (fun r => (r - avgReturn) ^ 2)).sum) / returns.length)
    else 0
  let sharpeRatio := if 0 < stdDev then (avgReturn / stdDev) * sqrtQ returns.length else 0
  let profitFactor :=
    if 0 < grossLoss trades then some (grossProfit trades / grossLoss trades)
    else if 0 < grossProfit trades then none
    else some 0
  let consec := calculateConsecutive trades
  let expectancy := winRate * avgWin - (1 - winRate) * avgLoss
  let returnOnCapital := totalPnL / config.startingBalance
  { totalTrades := trades.length
    wins := wins.length
    losses := losses.length
    winRate := winRate
    totalPnL := totalPnL
    maxDrawdown := dd.1
    maxDrawdownPercent := dd.2
    sharpeRatio := sharpeRatio
    profitFactor := profitFactor
    avgWin := avgWin
    avgLoss := avgLoss
    avgTradeReturn := if 0 < trades.length then totalPnL / trades.length else 0
    maxConsecutiveWins := consec.1
    maxConsecutiveLosses := consec.2
    expectancy := expectancy
    returnOnCapital := returnOnCapital }

/-- The fresh state built at the top of `BacktestEngine.run`. -/
def initialState (config : BacktestConfig) : EngineState :=
  { balance := config.startingBalance
    savedProfit := 0
    position := none
    trades := []
    equityCurve := []
    peakBalance := config.startingBalance
    lastTrade := none
    currentMarket := none
    expiredMarkets := [] }

/-- `BacktestEngine.run` from engine.ts: merge all ticks, sort them
chronologically (stable sort, as JavaScript `Array.prototype.sort`),
replay them, force-close any remaining position and compute the result. -/
def run (sqrtQ : ℚ → ℚ) (config : BacktestConfig)
    (markets : List HistoricalMarket) : BacktestResult :=
  let allTicks := markets.flatMap (fun m => m.priceTicks.map (fun t => (t, m)))
  let sorted := allTicks.mergeSort (fun a b => a.1.timestamp ≤ b.1.timestamp)
  let s1 := sorted.foldl (stepTick config markets) (initialState config)
  let s2 :=
    match s1.position with
    | some pos =>
      match marketLookup markets pos.marketSlug with
      | some m => closePositionAtExpiry config m s1
      | none => s1
    | none => s1
  { config := config
    metrics := calculateMetrics sqrtQ config s2.trades s2.equityCurve
    trades := s2.trades
    equityCurve := s2.equityCurve
    drawdownCurve := calculateDrawdownCurve config s2.equityCurve
    savedProfit := s2.savedProfit
    finalBalance := s2.balance }

/-! ### Chromosome model (genetic/types.ts and genetic/chromosome.ts) -/

/-- One gene's `{min, max}` range, from `ParameterBounds` in genetic/types.ts. -/
structure GeneRange where
  lo : ℚ
  hi : ℚ
deriving DecidableEq

/-- Per-gene bounds, from `ParameterBounds` in genetic/types.ts. -/
structure ParameterBounds where
  entryThreshold : GeneRange
  maxEntryPrice : GeneRange
  stopLoss : GeneRange
  maxSpread : GeneRange
  timeWindowMs : GeneRange
  profitTarget : GeneRange
deriving DecidableEq

/-- Gene values for a trading strategy, from `Genes` in genetic/types.ts. -/
structure Genes where
  entryThreshold : ℚ
  maxEntryPrice : ℚ
  stopLoss : ℚ
  maxSpread : ℚ
  timeWindowMs : ℚ
  profitTarget : ℚ
deriving DecidableEq, Inhabited

/-- Individual chromosome, from `Chromosome` in genetic/types.ts
(`fitness: number | null` becomes `Option ℚ`). -/
structure Chromosome where
  genes : Genes
  fitness : Option ℚ
  metrics : Option PerformanceMetrics
  validationFitness : Option ℚ
  validationMetrics : Option PerformanceMetrics
deriving DecidableEq, Inhabited

/-- Default parameter bounds for 1-hour markets, `DEFAULT_BOUNDS` in
genetic/types.ts. -/
def DEFAULT_BOUNDS : ParameterBounds :=
  { entryThreshold := { lo := 0.70, hi := 0.96 }
    maxEntryPrice := { lo := 0.92, hi := 0.99 }
    stopLoss := { lo := 0.30, hi := 0.80 }
    maxSpread := { lo := 0.02, hi := 0.08 }
    timeWindowMs := { lo := 300000, hi := 3600000 }
    profitTarget := { lo := 0.98, hi := 0.99 } }

/-- `roundTo` from chromosome.ts: `Math.round(value * 10^d) / 10^d`, with
JavaScript `Math.round x = ⌊x + 1/2⌋`. -/
def roundTo (value : ℚ) (decimals : ℕ) : ℚ :=
  ((value * 10 ^ decimals + 1 / 2).floor : ℚ) / 10 ^ decimals

/-- JavaScript `Math.round`. -/
def jsRound (x : ℚ) : ℚ := ((x + 1 / 2).floor : ℚ)

/-- `clamp` from chromosome.ts: `Math.max(min, Math.min(max, value))`. -/
def clamp (value lo hi : ℚ) : ℚ := max lo (min hi value)

/-- The rounding pass of `repairChromosome`: prices to 2 decimals, spread
to 3 decimals, the time window to an integer. -/
def roundGenes (g : Genes) : Genes :=
  { entryThreshold := roundTo g.entryThreshold 2
    maxEntryPrice := roundTo g.maxEntryPrice 2
    stopLoss := roundTo g.stopLoss 2
    maxSpread := roundTo g.maxSpread 3
    timeWindowMs := jsRound g.timeWindowMs
    profitTarget := roundTo g.profitTarget 2 }

/-- The clamping pass of `repairChromosome`. -/
def clampGenes (b : ParameterBounds) (g : Genes) : Genes :=
  { entryThreshold := clamp g.entryThreshold b.entryThreshold.lo b.entryThreshold.hi
    maxEntryPrice := clamp g.maxEntryPrice b.maxEntryPrice.lo b.maxEntryPrice.hi
    stopLoss := clamp g.stopLoss b.stopLoss.lo b.stopLoss.hi
    maxSpread := clamp g.maxSpread b.maxSpread.lo b.maxSpread.hi
    timeWindowMs := clamp g.timeWindowMs b.timeWindowMs.lo b.timeWindowMs.hi
    profitTarget := clamp g.profitTarget b.profitTarget.lo b.profitTarget.hi }

/-- Constraint 1 of `repairChromosome`:
`entryThreshold ≤ maxEntryPrice − 0.01`, repaired by raising
`maxEntryPrice` and, failing that, lowering `entryThreshold`. -/
def fixConstraint1 (b : ParameterBounds) (g : Genes) : Genes :=
  if g.maxEntryPrice - 0.01 < g.entryThreshold then
    let mep := min (g.entryThreshold + 0.01) b.maxEntryPrice.hi
    if mep - 0.01 < g.entryThreshold then
      { g with maxEntryPrice := mep, entryThreshold := mep - 0.01 }
    else { g with maxEntryPrice := mep }
  else g

/-- Constraint 2 of `repairChromosome`: `stopLoss < entryThreshold − 0.05`,
repaired by lowering `stopLoss`. -/
def fixConstraint2 (b : ParameterBounds) (g : Genes) : Genes :=
  if g.entryThreshold - 0.05 ≤ g.stopLoss then
    { g with stopLoss := max (g.entryThreshold - 0.06) b.stopLoss.lo }
  else g

/-- Constraint 3 of `repairChromosome`: `profitTarget ≥ maxEntryPrice`,
repaired by raising `profitTarget`. -/
def fixConstraint3 (b : ParameterBounds) (g : Genes) : Genes :=
  if g.profitTarget < g.maxEntryPrice then
    { g with profitTarget := min g.maxEntryPrice b.profitTarget.hi }
  else g

/-- `repairChromosome` from chromosome.ts, acting on the gene record:
round, clamp, then enforce the three cross-gene constraints in order. -/
def repairGenes (b : ParameterBounds) (g : Genes) : Genes :=
  fixConstraint3 b (fixConstraint2 b (fixConstraint1 b (clampGenes b (roundGenes g))))

/-- `repairChromosome` from chromosome.ts: the repaired genes together
with the chromosome's unchanged bookkeeping fields. -/
def repairChromosome (c : Chromosome) (b : ParameterBounds) : Chromosome :=
  { c with genes := repairGenes b c.genes }

/-- The three cross-gene invariants that the spec requires post-repair. -/
def GenesInvariants (g : Genes) : Prop :=
  g.entryThreshold ≤ g.maxEntryPrice - 0.01 ∧
  g.stopLoss < g.entryThreshold - 0.05 ∧
  g.maxEntryPrice ≤ g.profitTarget

/-- Satisfaction of every per-gene bound. -/
def GenesInBounds (b : ParameterBounds) (g : Genes) : Prop :=
  (b.entryThreshold.lo ≤ g.entryThreshold ∧ g.entryThreshold ≤ b.entryThreshold.hi) ∧
  (b.maxEntryPrice.lo ≤ g.maxEntryPrice ∧ g.maxEntryPrice ≤ b.maxEntryPrice.hi) ∧
  (b.stopLoss.lo ≤ g.stopLoss ∧ g.stopLoss ≤ b.stopLoss.hi) ∧
  (b.maxSpread.lo ≤ g.maxSpread ∧ g.maxSpread ≤ b.maxSpread.hi) ∧
  (b.timeWindowMs.lo ≤ g.timeWindowMs ∧ g.timeWindowMs ≤ b.timeWindowMs.hi) ∧
  (b.profitTarget.lo ≤ g.profitTarget ∧ g.profitTarget ≤ b.profitTarget.hi)

/-- A rational lying on the canonical grid with denominator `f`. -/
def OnGrid (f : ℚ) (x : ℚ) : Prop := ∃ k : ℤ, x = k / f

/-- Every gene lies on its canonical rounding grid. -/
def GenesOnGrid (g : Genes) : Prop :=
  OnGrid 100 g.entryThreshold ∧ OnGrid 100 g.maxEntryPrice ∧
  OnGrid 100 g.stopLoss ∧ OnGrid 1000 g.maxSpread ∧
  OnGrid 1 g.timeWindowMs ∧ OnGrid 100 g.profitTarget

/-- Engine-state invariant for the drawdown bound: open-position shares
and every equity point's balance are non-negative. -/
def StateOK (s : EngineState) : Prop :=
  (∀ pos, s.position = some pos → 0 ≤ pos.shares) ∧
  (∀ p ∈ s.equityCurve, 0 ≤ p.balance)

/-- Engine-state invariant for curve alignment: the equity curve carries
exactly one point per recorded trade, stamped with that trade's exit
timestamp. -/
def Aligned (s : EngineState) : Prop :=
  s.equityCurve.map (fun p => p.timestamp) = s.trades.map (fun t => t.exitTimestamp)

/-! ### Fitness function (genetic/fitness.ts) -/

/-- `calculateFitness` from genetic/fitness.ts.  `log1p` stands for the
floating-point `Math.log1p` used by the return-on-capital bonus;
`profitFactor = none` is JavaScript `Infinity`. -/
def calculateFitness (log1p : ℚ → ℚ) (m : PerformanceMetrics) : ℚ :=
  if m.totalPnL ≤ 0 then -1000 + m.totalPnL
  else if 0.30 < m.maxDrawdownPercent then -500 - (m.maxDrawdownPercent - 0.30) * 100
  else if m.totalTrades < 5 then -100 + (m.totalTrades : ℚ) * 10
  else
    let f1 := m.sharpeRatio * 100
    let f2 := f1 + m.winRate * 10
    let pfBonus :=
      min (match m.profitFactor with | none => (3 : ℚ) | some p => p) 3 * 6.67
    let f3 := f2 + pfBonus
    let ddPenalty := m.maxDrawdownPercent / 0.30 * 15
    let f4 := f3 - ddPenalty
    let rocBonus := log1p (max 0 m.returnOnCapital) * 10
    let f5 := f4 + rocBonus
    let f6 :=
      if m.maxConsecutiveLosses ≤ 3 then f5 + 10
      else if m.maxConsecutiveLosses ≤ 5 then f5 + 5
      else if m.maxConsecutiveLosses ≤ 7 then f5 + 2
      else f5
    let tradeBonus := min ((m.totalTrades : ℚ) / 20) 1 * 5
    let f7 := f6 + tradeBonus
    if 0 < m.expectancy then f7 + min (m.expectancy * 10) 15 else f7

/-! ### Genetic operators (genetic/operators.ts) -/

/-- The comparison `(current.fitness ?? -Infinity) > (best.fitness ?? -Infinity)`
used by the tournament reduce (`null` is `-Infinity`). -/
def fitGt (current best : Chromosome) : Bool :=
  match current.fitness, best.fitness with
  | none, _ => false
  | some _, none => true
  | some x, some y => decide (y < x)

/-- The `tournament` array built by `tournamentSelect`: `tournamentSize`
draws, each picking `validPopulation[Math.floor(Math.random() * length)]`.
`rand` is the ambient stream of `Math.random()` results. -/
def tournamentDraws (validPopulation : List Chromosome) (tournamentSize : ℕ)
    (rand : ℕ → ℚ) : List Chromosome :=
  (List.range tournamentSize).map
    (fun i => validPopulation.getD ((rand i * validPopulation.length).floor.toNat)
      default)

/-- `tournamentSelect` from genetic/operators.ts: filter to evaluated
chromosomes, throw a configuration error when none exist, draw the
tournament and reduce to the fittest (JavaScript `reduce` with no initial
value throws on an empty array). -/
def tournamentSelect (population : List Chromosome) (tournamentSize : ℕ)
    (rand : ℕ → ℚ) : Except String Chromosome :=
  let validPopulation := population.filter (fun c => c.fitness.isSome)
  if validPopulation.isEmpty then
    Except.error "No valid chromosomes in population for selection"
  else
    match tournamentDraws validPopulation tournamentSize rand with
    | [] => Except.error "Reduce of empty array with no initial value"
    | t :: ts =>
      Except.ok (ts.foldl (fun best current => if fitGt current best then current else best) t)

/-! ### Concrete sample inputs used by witnesses and counterexamples -/

/-- A metrics record with a losing total PnL. -/
def mNeg : PerformanceMetrics :=
  { totalTrades := 12, wins := 4, losses := 8, winRate := 1/3, totalPnL := -5
    maxDrawdown := 2, maxDrawdownPercent := 0.02, sharpeRatio := 0
    profitFactor := some 0, avgWin := 1, avgLoss := 2, avgTradeReturn := 0
    maxConsecutiveWins := 2, maxConsecutiveLosses := 3, expectancy := 0
    returnOnCapital := -0.05 }

/-- An evaluated chromosome with fitness 1. -/
def cEval1 : Chromosome :=
  { genes :=
      { entryThreshold := 0.90, maxEntryPrice := 0.95, stopLoss := 0.60
        maxSpread := 0.03, timeWindowMs := 600000, profitTarget := 0.99 }
    fitness := some 1
    metrics := none
    validationFitness := none
    validationMetrics := none }

/-- An evaluated chromosome with fitness 2 and different genes. -/
def cEval2 : Chromosome :=
  { genes :=
      { entryThreshold := 0.80, maxEntryPrice := 0.95, stopLoss := 0.60
        maxSpread := 0.03, timeWindowMs := 600000, profitTarget := 0.99 }
    fitness := some 2
    metrics := none
    validationFitness := none
    validationMetrics := none }

/-- A population with two evaluated chromosomes. -/
def popR : List Chromosome := [cEval1, cEval2]

/-- A trade with a PnL of exactly zero. -/
def tradeZero : BacktestTrade :=
  { marketSlug := "mkt1", tokenId := "tokUp", side := Side.UP
    entryPrice := 0.95, exitPrice := 0.95, shares := 10
    entryTimestamp := 0, exitTimestamp := 5
    exitReason := ExitReason.STOP_LOSS, pnl := 0 }

/-- A one-element trade log containing the zero-PnL trade. -/
def tradesZ : List BacktestTrade := [tradeZero]

/-- Adversarial bounds whose stop-loss range sits above
`entryThreshold − 0.05`: the sequential repair cannot satisfy cross-gene
invariant 2 inside them. -/
def bBad : ParameterBounds :=
  { entryThreshold := { lo := 0.70, hi := 0.70 }
    maxEntryPrice := { lo := 0.92, hi := 0.99 }
    stopLoss := { lo := 0.90, hi := 0.95 }
    maxSpread := { lo := 0.02, hi := 0.08 }
    timeWindowMs := { lo := 300000, hi := 3600000 }
    profitTarget := { lo := 0.98, hi := 0.99 } }

/-- A chromosome already inside `bBad`. -/
def cBad : Chromosome :=
  { genes :=
      { entryThreshold := 0.70
        maxEntryPrice := 0.95
        stopLoss := 0.90
        maxSpread := 0.05
        timeWindowMs := 600000
        profitTarget := 0.98 }
    fitness := none
    metrics := none
    validationFitness := none
    validationMetrics := none }

/-- A concrete valid configuration (the repository's default values). -/
def cfg0 : BacktestConfig :=
  { entryThreshold := 0.95
    maxEntryPrice := 0.98
    stopLoss := 0.72
    maxSpread := 0.03
    timeWindowMs := 1200000
    profitTarget := 0.99
    startingBalance := 100
    slippage := 0.001
    compoundLimit := 0
    baseBalance := 10 }

/-- A concrete open position entered at 0.90 on the UP token. -/
def pos0 : SimulatedPosition :=
  { tokenId := "tokUp"
    marketSlug := "mkt1"
    side := Side.UP
    shares := 111
    entryPrice := 0.90
    entryTimestamp := 0 }

/-- Engine state holding `pos0` open. -/
def st0 : EngineState :=
  { initialState cfg0 with position := some pos0 }

/-- A market whose outcome is unknown (`outcome: null`) at evaluation time. -/
def mktUnknown0 : HistoricalMarket :=
  { slug := "mkt1"
    question := "q"
    startDateMs := 0
    endDateMs := 3600000
    upTokenId := "tokUp"
    downTokenId := "tokDown"
    outcome := none
    priceTicks := [] }

/-- A tick whose best bid reaches the profit target. -/
def tickPT : PriceTick :=
  { timestamp := 10, tokenId := "tokUp", marketSlug := "mkt1"
    bestBid := 0.99, bestAsk := 1, midPrice := 0.995 }

/-- A tick whose best bid has fallen to 0.70, below the stop loss 0.72. -/
def tickSL : PriceTick :=
  { timestamp := 10, tokenId := "tokUp", marketSlug := "mkt1"
    bestBid := 0.70, bestAsk := 0.71, midPrice := 0.705 }

/-! ### Helper lemmas about the engine -/

theorem checkCompoundLimit_trades (config : BacktestConfig) (s : EngineState) :
    (checkCompoundLimit config s).trades = s.trades := by
  unfold checkCompoundLimit
  split_ifs <;> rfl

theorem checkCompoundLimit_equityCurve (config : BacktestConfig) (s : EngineState) :
    (checkCompoundLimit config s).equityCurve = s.equityCurve := by
  unfold checkCompoundLimit
  split_ifs <;> rfl

theorem checkCompoundLimit_position (config : BacktestConfig) (s : EngineState) :
    (checkCompoundLimit config s).position = s.position := by
  unfold checkCompoundLimit
  split_ifs <;> rfl

/-- The final exit price computed inside `executeExit`. -/
theorem executeExit_trades (config : BacktestConfig) {s : EngineState}
    {pos : SimulatedPosition} (h : s.position = some pos) (exitPrice ts : ℚ)
    (reason : ExitReason) :
    (executeExit config exitPrice ts reason s).trades =
      s.trades ++
        [{ marketSlug := pos.marketSlug
           tokenId := pos.tokenId
           side := pos.side
           entryPrice := pos.entryPrice
           exitPrice :=
             if reason = ExitReason.STOP_LOSS then
               max (exitPrice * (1 - config.slippage)) 0.01
             else exitPrice
           shares := pos.shares
           entryTimestamp := pos.entryTimestamp
           exitTimestamp := ts
           exitReason := reason
           pnl :=
             ((if reason = ExitReason.STOP_LOSS then
                 max (exitPrice * (1 - config.slippage)) 0.01
               else exitPrice) - pos.entryPrice) * pos.shares }] := by
  unfold executeExit
  rw [h]
  simp only [checkCompoundLimit_trades]

/-! ### C1 -/

/-- C1: for every config (and every value of the square-root oracle),
running the engine on an empty market list returns an empty trade log,
`finalBalance = startingBalance` and `savedProfit = 0`; the run is a total
function, so no error is raised. -/
theorem run_empty_markets (sqrtQ : ℚ → ℚ) (config : BacktestConfig) :
    (run sqrtQ config []).trades = [] ∧
    (run sqrtQ config []).finalBalance = config.startingBalance ∧
    (run sqrtQ config []).savedProfit = 0 := by
  refine ⟨?_, ?_, ?_⟩ <;>
    simp [run, initialState, List.mergeSort_nil]

/-! ### C2 -/

/-- C2: forced closure at market expiry exits at `profitTarget` when the
resolved side equals the held side and at `0.01` when it is the opposite
side; but when the outcome is unknown (`null`) the code silently resolves
the position as a win at `profitTarget` instead of treating it as an
unresolved case. -/
theorem closePositionAtExpiry_behavior (config : BacktestConfig)
    (market : HistoricalMarket) (s : EngineState) (pos : SimulatedPosition)
    (hpos : s.position = some pos) :
    (market.outcome = some pos.side →
      ∃ tr, (closePositionAtExpiry config market s).trades = s.trades ++ [tr] ∧
        tr.exitPrice = config.profitTarget ∧
        tr.exitReason = ExitReason.MARKET_RESOLVED) ∧
    (∀ o, market.outcome = some o → o ≠ pos.side →
      ∃ tr, (closePositionAtExpiry config market s).trades = s.trades ++ [tr] ∧
        tr.exitPrice = 0.01 ∧
        tr.exitReason = ExitReason.MARKET_RESOLVED) ∧
    (market.outcome = none →
      ∃ tr, (closePositionAtExpiry config market s).trades = s.trades ++ [tr] ∧
        tr.exitPrice = config.profitTarget ∧
        tr.exitReason = ExitReason.MARKET_RESOLVED) := by
  refine ⟨?_, ?_, ?_⟩
  · intro ho
    have hstep : closePositionAtExpiry config market s =
        executeExit config config.profitTarget market.endDateMs
          ExitReason.MARKET_RESOLVED s := by
      simp [closePositionAtExpiry, hpos, ho]
    rw [hstep, executeExit_trades config hpos _ _ _]
    refine ⟨_, rfl, ?_, rfl⟩
    simp
  · intro o ho hne
    have hstep : closePositionAtExpiry config market s =
        executeExit config 0.01 market.endDateMs ExitReason.MARKET_RESOLVED s := by
      simp [closePositionAtExpiry, hpos, ho, hne]
    rw [hstep, executeExit_trades config hpos _ _ _]
    refine ⟨_, rfl, ?_, rfl⟩
    simp
  · intro ho
    have hstep : closePositionAtExpiry config market s =
        executeExit config config.profitTarget market.endDateMs
          ExitReason.MARKET_RESOLVED s := by
      simp [closePositionAtExpiry, hpos, ho]
    rw [hstep, executeExit_trades config hpos _ _ _]
    refine ⟨_, rfl, ?_, rfl⟩
    simp

/-- Witness for C2 at the failing input: with an open position and a
market whose outcome is unknown, the forced closure exits at
`profitTarget` (a silently assumed win). -/
theorem closePositionAtExpiry_behavior_witness :
    ∃ tr, (closePositionAtExpiry cfg0 mktUnknown0 st0).trades = st0.trades ++ [tr] ∧
      tr.exitPrice = cfg0.profitTarget ∧
      tr.exitReason = ExitReason.MARKET_RESOLVED :=
  (closePositionAtExpiry_behavior cfg0 mktUnknown0 st0 pos0 rfl).2.2 rfl

/-! ### C3 -/

/-- C3: while a position is open on the tick's token, the profit target is
checked before the stop loss: with `bestBid ≥ profitTarget` the exit price
is exactly `profitTarget` (no slippage) with reason PROFIT_TARGET;
otherwise with `bestBid ≤ stopLoss` the exit price is
`max(bestBid × (1 − slippage), 0.01)` with reason STOP_LOSS. -/
theorem processTick_profit_target_before_stop_loss (config : BacktestConfig)
    (tick : PriceTick) (market : HistoricalMarket) (s : EngineState)
    (pos : SimulatedPosition) (hpos : s.position = some pos)
    (htok : pos.tokenId = tick.tokenId) :
    (config.profitTarget ≤ tick.bestBid →
      ∃ tr, (processTick config tick market s).trades = s.trades ++ [tr] ∧
        tr.exitPrice = config.profitTarget ∧
        tr.exitReason = ExitReason.PROFIT_TARGET) ∧
    (tick.bestBid < config.profitTarget → tick.bestBid ≤ config.stopLoss →
      ∃ tr, (processTick config tick market s).trades = s.trades ++ [tr] ∧
        tr.exitPrice = max (tick.bestBid * (1 - config.slippage)) 0.01 ∧
        tr.exitReason = ExitReason.STOP_LOSS) := by
  constructor
  · intro hbid
    have hstep : processTick config tick market s =
        executeExit config config.profitTarget tick.timestamp
          ExitReason.PROFIT_TARGET s := by
      unfold processTick
      rw [hpos]
      simp [htok, hbid]
    rw [hstep, executeExit_trades config hpos _ _ _]
    refine ⟨_, rfl, ?_, rfl⟩
    simp
  · intro hbid hsl
    have hstep : processTick config tick market s =
        executeExit config tick.bestBid tick.timestamp ExitReason.STOP_LOSS s := by
      unfold processTick checkStopLoss
      rw [hpos]
      simp [htok, hbid, hsl, not_le.mpr hbid]
    rw [hstep, executeExit_trades config hpos _ _ _]
    refine ⟨_, rfl, ?_, rfl⟩
    simp

/-- Witness for C3: at bid 0.99 with profit target 0.99 the exit is a
PROFIT_TARGET exit at 0.99; at bid 0.70 with stop loss 0.72 the exit is a
STOP_LOSS exit at `max(0.70 × (1 − 0.001), 0.01)`. -/
theorem processTick_profit_target_before_stop_loss_witness :
    (∃ tr, (processTick cfg0 tickPT mktUnknown0 st0).trades = st0.trades ++ [tr] ∧
      tr.exitPrice = cfg0.profitTarget ∧
      tr.exitReason = ExitReason.PROFIT_TARGET) ∧
    (∃ tr, (processTick cfg0 tickSL mktUnknown0 st0).trades = st0.trades ++ [tr] ∧
      tr.exitPrice = max (tickSL.bestBid * (1 - cfg0.slippage)) 0.01 ∧
      tr.exitReason = ExitReason.STOP_LOSS) :=
  ⟨(processTick_profit_target_before_stop_loss cfg0 tickPT mktUnknown0 st0 pos0
      rfl rfl).1 (by norm_num [cfg0, tickPT]),
   (processTick_profit_target_before_stop_loss cfg0 tickSL mktUnknown0 st0 pos0
      rfl rfl).2 (by norm_num [cfg0, tickSL]) (by norm_num [cfg0, tickSL])⟩

/-! ### C4: the repair function -/

/-- Batteries' `Rat.floor` agrees with the mathematical floor. -/
theorem rat_floor_eq_intFloor (q : ℚ) : q.floor = ⌊q⌋ :=
  (Rat.floor_def' q).trans Rat.floor_def.symm

theorem roundTo_onGrid (x : ℚ) (d : ℕ) : OnGrid (10 ^ d) (roundTo x d) :=
  ⟨(x * 10 ^ d + 1 / 2).floor, rfl⟩

theorem jsRound_onGrid (x : ℚ) : OnGrid 1 (jsRound x) :=
  ⟨(x + 1 / 2).floor, by simp [jsRound]⟩

theorem OnGrid.roundTo_eq {d : ℕ} {x : ℚ} (h : OnGrid (10 ^ d) x) :
    roundTo x d = x := by
  obtain ⟨k, rfl⟩ := h
  unfold roundTo
  rw [rat_floor_eq_intFloor]
  rw [div_mul_cancel₀ _ (by positivity : (10 : ℚ) ^ d ≠ 0)]
  rw [add_comm, Int.floor_add_int]
  norm_num

theorem OnGrid.jsRound_eq {x : ℚ} (h : OnGrid 1 x) : jsRound x = x := by
  obtain ⟨k, rfl⟩ := h
  unfold jsRound
  rw [rat_floor_eq_intFloor]
  rw [div_one, add_comm, Int.floor_add_int]
  norm_num

theorem OnGrid.add {f x y : ℚ} (hx : OnGrid f x) (hy : OnGrid f y) :
    OnGrid f (x + y) := by
  obtain ⟨k, rfl⟩ := hx
  obtain ⟨l, rfl⟩ := hy
  exact ⟨k + l, by push_cast; rw [add_div]⟩

theorem OnGrid.sub {f x y : ℚ} (hx : OnGrid f x) (hy : OnGrid f y) :
    OnGrid f (x - y) := by
  obtain ⟨k, rfl⟩ := hx
  obtain ⟨l, rfl⟩ := hy
  exact ⟨k - l, by push_cast; rw [sub_div]⟩

theorem OnGrid.max {f x y : ℚ} (hx : OnGrid f x) (hy : OnGrid f y) :
    OnGrid f (max x y) := by
  rcases max_choice x y with h | h <;> rw [h] <;> assumption

theorem OnGrid.min {f x y : ℚ} (hx : OnGrid f x) (hy : OnGrid f y) :
    OnGrid f (min x y) := by
  rcases min_choice x y with h | h <;> rw [h] <;> assumption

theorem clamp_onGrid {f lo hi x : ℚ} (hlo : OnGrid f lo) (hhi : OnGrid f hi)
    (hx : OnGrid f x) : OnGrid f (clamp x lo hi) :=
  hlo.max (hhi.min hx)

theorem le_clamp (x lo hi : ℚ) : lo ≤ clamp x lo hi := le_max_left _ _

theorem clamp_le {lo hi : ℚ} (x : ℚ) (h : lo ≤ hi) : clamp x lo hi ≤ hi :=
  max_le h (min_le_left _ _)

theorem clamp_eq_self {lo hi x : ℚ} (h1 : lo ≤ x) (h2 : x ≤ hi) :
    clamp x lo hi = x := by
  unfold clamp
  rw [min_eq_right h2, max_eq_right h1]

/-- After repairing against the repository's `DEFAULT_BOUNDS`, the genes
satisfy the three cross-gene invariants, every per-gene bound, and lie on
their canonical rounding grids. -/
theorem repairGenes_default_props (g0 : Genes) :
    GenesInvariants (repairGenes DEFAULT_BOUNDS g0) ∧
    GenesInBounds DEFAULT_BOUNDS (repairGenes DEFAULT_BOUNDS g0) ∧
    GenesOnGrid (repairGenes DEFAULT_BOUNDS g0) := by
  set g1 := roundGenes g0 with hg1
  set g2 := clampGenes DEFAULT_BOUNDS g1 with hg2
  set g3 := fixConstraint1 DEFAULT_BOUNDS g2 with hg3
  set g4 := fixConstraint2 DEFAULT_BOUNDS g3 with hg4
  have hrepair : repairGenes DEFAULT_BOUNDS g0 = fixConstraint3 DEFAULT_BOUNDS g4 := rfl
  -- Stage 2: clamped values are inside the default bounds and on the grid.
  have h2et : (0.70 : ℚ) ≤ g2.entryThreshold ∧ g2.entryThreshold ≤ 0.96 := by
    rw [hg2]
    exact ⟨le_clamp _ _ _, clamp_le _ (by norm_num [DEFAULT_BOUNDS])⟩
  have h2mep : (0.92 : ℚ) ≤ g2.maxEntryPrice ∧ g2.maxEntryPrice ≤ 0.99 := by
    rw [hg2]
    exact ⟨le_clamp _ _ _, clamp_le _ (by norm_num [DEFAULT_BOUNDS])⟩
  have h2sl : (0.30 : ℚ) ≤ g2.stopLoss ∧ g2.stopLoss ≤ 0.80 := by
    rw [hg2]
    exact ⟨le_clamp _ _ _, clamp_le _ (by norm_num [DEFAULT_BOUNDS])⟩
  have h2ms : (0.02 : ℚ) ≤ g2.maxSpread ∧ g2.maxSpread ≤ 0.08 := by
    rw [hg2]
    exact ⟨le_clamp _ _ _, clamp_le _ (by norm_num [DEFAULT_BOUNDS])⟩
  have h2tw : (300000 : ℚ) ≤ g2.timeWindowMs ∧ g2.timeWindowMs ≤ 3600000 := by
    rw [hg2]
    exact ⟨le_clamp _ _ _, clamp_le _ (by norm_num [DEFAULT_BOUNDS])⟩
  have h2pt : (0.98 : ℚ) ≤ g2.profitTarget ∧ g2.profitTarget ≤ 0.99 := by
    rw [hg2]
    exact ⟨le_clamp _ _ _, clamp_le _ (by norm_num [DEFAULT_BOUNDS])⟩
  have h2etg : OnGrid (10 ^ (2 : ℕ)) g2.entryThreshold := by
    rw [hg2]
    exact clamp_onGrid ⟨70, by norm_num [DEFAULT_BOUNDS]⟩ ⟨96, by norm_num [DEFAULT_BOUNDS]⟩ (by rw [hg1]; exact roundTo_onGrid _ _)
  have h2mepg : OnGrid (10 ^ (2 : ℕ)) g2.maxEntryPrice := by
    rw [hg2]
    exact clamp_onGrid ⟨92, by norm_num [DEFAULT_BOUNDS]⟩ ⟨99, by norm_num [DEFAULT_BOUNDS]⟩ (by rw [hg1]; exact roundTo_onGrid _ _)
  have h2slg : OnGrid (10 ^ (2 : ℕ)) g2.stopLoss := by
    rw [hg2]
    exact clamp_onGrid ⟨30, by norm_num [DEFAULT_BOUNDS]⟩ ⟨80, by norm_num [DEFAULT_BOUNDS]⟩ (by rw [hg1]; exact roundTo_onGrid _ _)
  have h2msg : OnGrid (10 ^ (3 : ℕ)) g2.maxSpread := by
    rw [hg2]
    exact clamp_onGrid ⟨20, by norm_num [DEFAULT_BOUNDS]⟩ ⟨80, by norm_num [DEFAULT_BOUNDS]⟩ (by rw [hg1]; exact roundTo_onGrid _ _)
  have h2twg : OnGrid 1 g2.timeWindowMs := by
    rw [hg2]
    exact clamp_onGrid ⟨300000, by norm_num [DEFAULT_BOUNDS]⟩ ⟨3600000, by norm_num [DEFAULT_BOUNDS]⟩ (by rw [hg1]; exact jsRound_onGrid _)
  have h2ptg : OnGrid (10 ^ (2 : ℕ)) g2.profitTarget := by
    rw [hg2]
    exact clamp_onGrid ⟨98, by norm_num [DEFAULT_BOUNDS]⟩ ⟨99, by norm_num [DEFAULT_BOUNDS]⟩ (by rw [hg1]; exact roundTo_onGrid _ _)
  -- Stage 3: constraint 1 only moves maxEntryPrice, and establishes it.
  have h3 : g3.entryThreshold = g2.entryThreshold ∧ g3.stopLoss = g2.stopLoss ∧
      g3.maxSpread = g2.maxSpread ∧ g3.timeWindowMs = g2.timeWindowMs ∧
      g3.profitTarget = g2.profitTarget ∧
      ((0.92 : ℚ) ≤ g3.maxEntryPrice ∧ g3.maxEntryPrice ≤ 0.99) ∧
      g3.entryThreshold ≤ g3.maxEntryPrice - 0.01 ∧
      OnGrid (10 ^ (2 : ℕ)) g3.maxEntryPrice := by
    rw [hg3]
    unfold fixConstraint1
    by_cases h : g2.maxEntryPrice - 0.01 < g2.entryThreshold
    · rw [if_pos h]
      have hmin : min (g2.entryThreshold + 0.01) DEFAULT_BOUNDS.maxEntryPrice.hi =
          g2.entryThreshold + 0.01 := by
        apply min_eq_left
        show g2.entryThreshold + 0.01 ≤ 0.99
        linarith [h2et.2]
      rw [hmin]
      rw [if_neg (by linarith)]
      refine ⟨rfl, rfl, rfl, rfl, rfl, ⟨?_, ?_⟩, ?_, ?_⟩
      · show (0.92 : ℚ) ≤ g2.entryThreshold + 0.01
        linarith [h2mep.1]
      · show g2.entryThreshold + 0.01 ≤ 0.99
        linarith [h2et.2]
      · show g2.entryThreshold ≤ g2.entryThreshold + 0.01 - 0.01
        linarith
      · exact h2etg.add ⟨1, by norm_num [DEFAULT_BOUNDS]⟩
    · rw [if_neg h]
      exact ⟨rfl, rfl, rfl, rfl, rfl, h2mep, by linarith [not_lt.mp h], h2mepg⟩
  -- Stage 4: constraint 2 only moves stopLoss, and establishes it.
  have h4 : g4.entryThreshold = g3.entryThreshold ∧ g4.maxEntryPrice = g3.maxEntryPrice ∧
      g4.maxSpread = g3.maxSpread ∧ g4.timeWindowMs = g3.timeWindowMs ∧
      g4.profitTarget = g3.profitTarget ∧
      ((0.30 : ℚ) ≤ g4.stopLoss ∧ g4.stopLoss ≤ 0.80) ∧
      g4.stopLoss < g4.entryThreshold - 0.05 ∧
      OnGrid (10 ^ (2 : ℕ)) g4.stopLoss := by
    rw [hg4]
    unfold fixConstraint2
    by_cases h : g3.entryThreshold - 0.05 ≤ g3.stopLoss
    · rw [if_pos h]
      have hsl3 := h3.2.1
      have het3 := h3.1
      refine ⟨rfl, rfl, rfl, rfl, rfl, ⟨?_, ?_⟩, ?_, ?_⟩
      · exact le_max_right _ _
      · show max (g3.entryThreshold - 0.06) DEFAULT_BOUNDS.stopLoss.lo ≤ 0.80
        apply max_le
        · rw [het3] at h ⊢
          rw [hsl3] at h
          linarith [h2sl.2]
        · show (0.30 : ℚ) ≤ 0.80
          norm_num
      · show max (g3.entryThreshold - 0.06) DEFAULT_BOUNDS.stopLoss.lo <
            g3.entryThreshold - 0.05
        apply max_lt
        · linarith
        · show (0.30 : ℚ) < g3.entryThreshold - 0.05
          rw [het3]
          linarith [h2et.1]
      · refine OnGrid.max ?_ ⟨30, by norm_num [DEFAULT_BOUNDS]⟩
        rw [het3]
        exact h2etg.sub ⟨6, by norm_num [DEFAULT_BOUNDS]⟩
    · rw [if_neg h]
      refine ⟨rfl, rfl, rfl, rfl, rfl, ?_, by linarith [not_le.mp h], ?_⟩
      · rw [h3.2.1]
        exact h2sl
      · rw [h3.2.1]
        exact h2slg
  -- Stage 5: constraint 3 only moves profitTarget, and establishes it.
  rw [hrepair]
  unfold fixConstraint3
  by_cases h : g4.profitTarget < g4.maxEntryPrice
  · rw [if_pos h]
    have hmin : min g4.maxEntryPrice DEFAULT_BOUNDS.profitTarget.hi = g4.maxEntryPrice := by
      apply min_eq_left
      show g4.maxEntryPrice ≤ 0.99
      rw [h4.2.1]
      exact h3.2.2.2.2.2.1.2
    rw [hmin]
    have hpt4 : (0.98 : ℚ) ≤ g4.profitTarget := by
      rw [h4.2.2.2.2.1, h3.2.2.2.2.1]
      exact h2pt.1
    refine ⟨⟨?_, ?_, le_refl _⟩, ?_, ?_⟩
    · show g4.entryThreshold ≤ g4.maxEntryPrice - 0.01
      rw [h4.1, h4.2.1]
      exact h3.2.2.2.2.2.2.1
    · show g4.stopLoss < g4.entryThreshold - 0.05
      exact h4.2.2.2.2.2.2.1
    · refine ⟨?_, ?_, ?_, ?_, ?_, ?_⟩
      · constructor
        · show (0.70 : ℚ) ≤ g4.entryThreshold
          rw [h4.1, h3.1]
          exact h2et.1
        · show g4.entryThreshold ≤ 0.96
          rw [h4.1, h3.1]
          exact h2et.2
      · rw [h4.2.1]
        exact h3.2.2.2.2.2.1
      · exact h4.2.2.2.2.2.1
      · constructor
        · show (0.02 : ℚ) ≤ g4.maxSpread
          rw [h4.2.2.1, h3.2.2.1]
          exact h2ms.1
        · show g4.maxSpread ≤ 0.08
          rw [h4.2.2.1, h3.2.2.1]
          exact h2ms.2
      · constructor
        · show (300000 : ℚ) ≤ g4.timeWindowMs
          rw [h4.2.2.2.1, h3.2.2.2.1]
          exact h2tw.1
        · show g4.timeWindowMs ≤ 3600000
          rw [h4.2.2.2.1, h3.2.2.2.1]
          exact h2tw.2
      · constructor
        · show (0.98 : ℚ) ≤ g4.maxEntryPrice
          calc (0.98 : ℚ) ≤ g4.profitTarget := hpt4
          _ ≤ g4.maxEntryPrice := le_of_lt h
        · rw [h4.2.1]
          exact h3.2.2.2.2.2.1.2
    · refine ⟨?_, ?_, ?_, ?_, ?_, ?_⟩
      · rw [h4.1, h3.1]
        exact h2etg
      · rw [h4.2.1]
        exact h3.2.2.2.2.2.2.2
      · exact h4.2.2.2.2.2.2.2
      · rw [h4.2.2.1, h3.2.2.1]
        exact h2msg
      · rw [h4.2.2.2.1, h3.2.2.2.1]
        exact h2twg
      · rw [h4.2.1]
        exact h3.2.2.2.2.2.2.2
  · rw [if_neg h]
    refine ⟨⟨?_, ?_, not_lt.mp h⟩, ?_, ?_⟩
    · rw [h4.1, h4.2.1]
      exact h3.2.2.2.2.2.2.1
    · exact h4.2.2.2.2.2.2.1
    · refine ⟨?_, ?_, h4.2.2.2.2.2.1, ?_, ?_, ?_⟩
      · rw [h4.1, h3.1]
        exact h2et
      · rw [h4.2.1]
        exact h3.2.2.2.2.2.1
      · rw [h4.2.2.1, h3.2.2.1]
        exact h2ms
      · rw [h4.2.2.2.1, h3.2.2.2.1]
        exact h2tw
      · rw [h4.2.2.2.2.1, h3.2.2.2.2.1]
        exact h2pt
    · refine ⟨?_, ?_, h4.2.2.2.2.2.2.2, ?_, ?_, ?_⟩
      · rw [h4.1, h3.1]
        exact h2etg
      · rw [h4.2.1]
        exact h3.2.2.2.2.2.2.2
      · rw [h4.2.2.1, h3.2.2.1]
        exact h2msg
      · rw [h4.2.2.2.1, h3.2.2.2.1]
        exact h2twg
      · rw [h4.2.2.2.2.1, h3.2.2.2.2.1]
        exact h2ptg

/-- Genes already on the grid, in bounds, and satisfying the cross-gene
invariants are a fixed point of the repair. -/
theorem repairGenes_fixpoint (b : ParameterBounds) (g : Genes)
    (hgrid : GenesOnGrid g) (hb : GenesInBounds b g) (hinv : GenesInvariants g) :
    repairGenes b g = g := by
  obtain ⟨et, mep, sl, ms, tw, pt⟩ := g
  obtain ⟨hinv1, hinv2, hinv3⟩ := hinv
  obtain ⟨⟨het1, het2⟩, ⟨hmep1, hmep2⟩, ⟨hsl1, hsl2⟩, ⟨hms1, hms2⟩, ⟨htw1, htw2⟩,
    ⟨hpt1, hpt2⟩⟩ := hb
  obtain ⟨get, gmep, gsl, gms, gtw, gpt⟩ := hgrid
  have h1 : roundGenes ⟨et, mep, sl, ms, tw, pt⟩ = ⟨et, mep, sl, ms, tw, pt⟩ := by
    unfold roundGenes
    rw [OnGrid.roundTo_eq get, OnGrid.roundTo_eq gmep, OnGrid.roundTo_eq gsl,
      OnGrid.roundTo_eq gms, OnGrid.jsRound_eq gtw, OnGrid.roundTo_eq gpt]
  have h2 : clampGenes b ⟨et, mep, sl, ms, tw, pt⟩ = ⟨et, mep, sl, ms, tw, pt⟩ := by
    unfold clampGenes
    rw [clamp_eq_self het1 het2, clamp_eq_self hmep1 hmep2, clamp_eq_self hsl1 hsl2,
      clamp_eq_self hms1 hms2, clamp_eq_self htw1 htw2, clamp_eq_self hpt1 hpt2]
  have h3 : fixConstraint1 b ⟨et, mep, sl, ms, tw, pt⟩ = ⟨et, mep, sl, ms, tw, pt⟩ := by
    unfold fixConstraint1
    rw [if_neg (not_lt.mpr (by simpa using hinv1))]
  have h4 : fixConstraint2 b ⟨et, mep, sl, ms, tw, pt⟩ = ⟨et, mep, sl, ms, tw, pt⟩ := by
    unfold fixConstraint2
    rw [if_neg (not_le.mpr (by simpa using hinv2))]
  have h5 : fixConstraint3 b ⟨et, mep, sl, ms, tw, pt⟩ = ⟨et, mep, sl, ms, tw, pt⟩ := by
    unfold fixConstraint3
    rw [if_neg (not_lt.mpr (by simpa using hinv3))]
  unfold repairGenes
  rw [h1, h2, h3, h4, h5]

/-- Counterexample for C4 as stated: for the explicit bounds `bBad` (whose
stop-loss range lies entirely above `entryThreshold − 0.05`) and the
explicit in-bounds chromosome `cBad`, the repaired genes violate
cross-gene invariant 2. -/
theorem repair_invariants_counterexample :
    ¬ ((repairChromosome cBad bBad).genes.stopLoss <
        (repairChromosome cBad bBad).genes.entryThreshold - 0.05) := by
  norm_num [repairChromosome, repairGenes, fixConstraint1, fixConstraint2,
    fixConstraint3, clampGenes, roundGenes, clamp, roundTo, jsRound,
    rat_floor_eq_intFloor, cBad, bBad]

/-- C4 (amended to the repository's declared `DEFAULT_BOUNDS`): repair is
idempotent, and the repaired genes satisfy all three cross-gene
invariants and every per-gene bound. -/
theorem repairChromosome_default_bounds (c : Chromosome) :
    repairChromosome (repairChromosome c DEFAULT_BOUNDS) DEFAULT_BOUNDS =
      repairChromosome c DEFAULT_BOUNDS ∧
    GenesInvariants (repairChromosome c DEFAULT_BOUNDS).genes ∧
    GenesInBounds DEFAULT_BOUNDS (repairChromosome c DEFAULT_BOUNDS).genes := by
  have hp := repairGenes_default_props c.genes
  refine ⟨?_, hp.1, hp.2.1⟩
  unfold repairChromosome
  simp only
  rw [repairGenes_fixpoint DEFAULT_BOUNDS _ hp.2.2 hp.2.1 hp.1]

/-! ### C6 -/

/-- C6: the fitness function applies its hard floors before any bonus
term and in order: non-positive PnL, then excessive drawdown, then too
few trades; only otherwise is the bonus-term sum computed. -/
theorem calculateFitness_hard_floors (log1p : ℚ → ℚ) (m : PerformanceMetrics) :
    (m.totalPnL ≤ 0 → calculateFitness log1p m = -1000 + m.totalPnL) ∧
    (0 < m.totalPnL → 0.30 < m.maxDrawdownPercent →
      calculateFitness log1p m = -500 - (m.maxDrawdownPercent - 0.30) * 100) ∧
    (0 < m.totalPnL → m.maxDrawdownPercent ≤ 0.30 → m.totalTrades < 5 →
      calculateFitness log1p m = -100 + (m.totalTrades : ℚ) * 10) ∧
    (0 < m.totalPnL → m.maxDrawdownPercent ≤ 0.30 → 5 ≤ m.totalTrades →
      calculateFitness log1p m =
        m.sharpeRatio * 100 + m.winRate * 10 +
        min (match m.profitFactor with | none => (3 : ℚ) | some p => p) 3 * 6.67 -
        m.maxDrawdownPercent / 0.30 * 15 +
        log1p (max 0 m.returnOnCapital) * 10 +
        (if m.maxConsecutiveLosses ≤ 3 then (10 : ℚ)
         else if m.maxConsecutiveLosses ≤ 5 then 5
         else if m.maxConsecutiveLosses ≤ 7 then 2
         else 0) +
        min ((m.totalTrades : ℚ) / 20) 1 * 5 +
        (if 0 < m.expectancy then min (m.expectancy * 10) 15 else 0)) := by
  refine ⟨?_, ?_, ?_, ?_⟩
  · intro h
    simp only [calculateFitness, if_pos h]
  · intro h1 h2
    simp only [calculateFitness, if_neg (not_le.mpr h1), if_pos h2]
  · intro h1 h2 h3
    simp only [calculateFitness, if_neg (not_le.mpr h1), if_neg (not_lt.mpr h2), if_pos h3]
  · intro h1 h2 h3
    simp only [calculateFitness, if_neg (not_le.mpr h1), if_neg (not_lt.mpr h2),
      if_neg (not_lt.mpr h3)]
    split_ifs <;> ring

/-- Witness for C6: on a metrics record with `totalPnL = -5` the fitness
is exactly `-1000 + (-5)`. -/
theorem calculateFitness_hard_floors_witness :
    mNeg.totalPnL ≤ 0 ∧ calculateFitness (fun _ => 0) mNeg = -1000 + mNeg.totalPnL :=
  ⟨by norm_num [mNeg],
   (calculateFitness_hard_floors (fun _ => 0) mNeg).1 (by norm_num [mNeg])⟩

/-! ### C8 and C5: tournament selection and ambient randomness -/

theorem fitGt_irrefl (a : Chromosome) : fitGt a a = false := by
  unfold fitGt
  cases a.fitness <;> simp

theorem fitGt_trans {a b c : Chromosome} (h1 : fitGt a b = true)
    (h2 : fitGt b c = true) : fitGt a c = true := by
  unfold fitGt at h1 h2 ⊢
  rcases ha : a.fitness with _ | x <;> rcases hb : b.fitness with _ | y <;>
    rcases hc : c.fitness with _ | z <;> simp [ha, hb, hc] at h1 h2 ⊢
  exact lt_trans h2 h1

theorem fitGt_step {a b c : Chromosome} (h1 : fitGt a c = true)
    (h2 : fitGt a b = false) : fitGt b c = true := by
  unfold fitGt at h1 h2 ⊢
  rcases ha : a.fitness with _ | x <;> rcases hb : b.fitness with _ | y <;>
    rcases hc : c.fitness with _ | z <;> simp [ha, hb, hc] at h1 h2 ⊢
  exact lt_of_lt_of_le h1 h2

/-- The tournament reduce returns one of the drawn individuals. -/
theorem tournamentFold_mem (t : Chromosome) (ts : List Chromosome) :
    ts.foldl (fun best current => if fitGt current best then current else best) t ∈
      t :: ts := by
  induction ts generalizing t with
  | nil => simp
  | cons c rest ih =>
    simp only [List.foldl_cons]
    rcases List.mem_cons.mp (ih (if fitGt c t then c else t)) with h | h
    · rw [h]
      split_ifs <;> simp
    · simp [h]

/-- No drawn individual strictly beats the tournament reduce's result. -/
theorem tournamentFold_max (t : Chromosome) (ts : List Chromosome) :
    ∀ d ∈ t :: ts,
      fitGt d (ts.foldl (fun best current => if fitGt current best then current else best) t) =
        false := by
  induction ts generalizing t with
  | nil =>
    intro d hd
    simp only [List.mem_singleton] at hd
    subst hd
    exact fitGt_irrefl d
  | cons c rest ih =>
    intro d hd
    simp only [List.foldl_cons]
    by_cases hc : fitGt c t
    · rw [if_pos hc]
      set R := rest.foldl (fun best current => if fitGt current best then current else best) c with hR
      rcases List.mem_cons.mp hd with rfl | hd'
      · by_contra hcon
        have hdres : fitGt d R = true := by
          revert hcon
          cases fitGt d R <;> simp
        have hcres : fitGt c R = true := fitGt_trans hc hdres
        have := ih c c (List.mem_cons_self _ _)
        rw [← hR] at this
        rw [this] at hcres
        exact Bool.false_ne_true hcres
      · rcases List.mem_cons.mp hd' with rfl | hrest
        · exact ih d d (List.mem_cons_self _ _)
        · exact ih c d (List.mem_cons_of_mem _ hrest)
    · rw [if_neg hc]
      set R := rest.foldl (fun best current => if fitGt current best then current else best) t with hR
      rcases List.mem_cons.mp hd with rfl | hd'
      · exact ih d d (List.mem_cons_self _ _)
      · rcases List.mem_cons.mp hd' with rfl | hrest
        · by_contra hcon
          have hdres : fitGt d R = true := by
            revert hcon
            cases fitGt d R <;> simp
          have hcb : fitGt d t = false := by
            revert hc
            cases fitGt d t <;> simp
          have hres : fitGt t R = true := fitGt_step hdres hcb
          have hmax := ih t t (List.mem_cons_self _ _)
          rw [← hR] at hmax
          rw [hmax] at hres
          exact Bool.false_ne_true hres
        · exact ih t d (List.mem_cons_of_mem _ hrest)

/-- Every tournament draw comes from the evaluated sub-population when the
ambient random draws lie in `[0, 1)`. -/
theorem tournamentDraws_mem {vp : List Chromosome} {k : ℕ} {rand : ℕ → ℚ}
    (hvp : vp ≠ []) (hr : ∀ i, 0 ≤ rand i ∧ rand i < 1) :
    ∀ x ∈ tournamentDraws vp k rand, x ∈ vp := by
  intro x hx
  unfold tournamentDraws at hx
  simp only [List.mem_map, List.mem_range] at hx
  obtain ⟨i, hi, rfl⟩ := hx
  have hlen : 0 < vp.length := List.length_pos.mpr hvp
  have h0 : (0 : ℚ) ≤ rand i * vp.length := mul_nonneg (hr i).1 (by positivity)
  have h1 : rand i * vp.length < vp.length := by
    calc rand i * vp.length < 1 * vp.length := by
          apply mul_lt_mul_of_pos_right (hr i).2
          exact_mod_cast hlen
    _ = (vp.length : ℚ) := one_mul _
  have hfl : (rand i * vp.length).floor < (vp.length : ℤ) := by
    rw [rat_floor_eq_intFloor]
    apply Int.floor_lt.mpr
    exact_mod_cast h1
  have hfl0 : 0 ≤ (rand i * vp.length).floor := by
    rw [rat_floor_eq_intFloor]
    exact Int.floor_nonneg.mpr h0
  have hidx : ((rand i * vp.length).floor).toNat < vp.length := by omega
  rw [List.getD_eq_getElem _ _ hidx]
  exact List.getElem_mem hidx

/-- C8: tournament selection on a population with zero evaluated
chromosomes reports the configuration error; with at least one evaluated
chromosome it returns an evaluated chromosome drawn from the evaluated
subset that no other drawn individual strictly beats. -/
theorem tournamentSelect_spec (population : List Chromosome) (tournamentSize : ℕ)
    (rand : ℕ → ℚ) (hk : 0 < tournamentSize) (hr : ∀ i, 0 ≤ rand i ∧ rand i < 1) :
    (population.filter (fun c => c.fitness.isSome) = [] →
      tournamentSelect population tournamentSize rand =
        Except.error "No valid chromosomes in population for selection") ∧
    (population.filter (fun c => c.fitness.isSome) ≠ [] →
      ∃ c, tournamentSelect population tournamentSize rand = Except.ok c ∧
        c.fitness.isSome = true ∧
        c ∈ tournamentDraws (population.filter (fun c => c.fitness.isSome))
            tournamentSize rand ∧
        ∀ d ∈ tournamentDraws (population.filter (fun c => c.fitness.isSome))
            tournamentSize rand, fitGt d c = false) := by
  constructor
  · intro h
    unfold tournamentSelect
    rw [h]
    simp
  · intro h
    set vp := population.filter (fun c => c.fitness.isSome) with hvp
    have hlen : (tournamentDraws vp tournamentSize rand).length = tournamentSize := by
      unfold tournamentDraws
      simp
    rcases hd : tournamentDraws vp tournamentSize rand with _ | ⟨t, ts⟩
    · rw [hd] at hlen
      simp at hlen
      omega
    · refine ⟨ts.foldl (fun best current => if fitGt current best then current else best) t,
        ?_, ?_, ?_, ?_⟩
      · unfold tournamentSelect
        rw [← hvp]
        rw [if_neg (by simp [List.isEmpty_iff, h])]
        rw [hd]
      · have hmem0 : (ts.foldl (fun best current => if fitGt current best then current else best) t) ∈
            tournamentDraws vp tournamentSize rand := by
          rw [hd]
          exact tournamentFold_mem t ts
        have hmem : (ts.foldl (fun best current => if fitGt current best then current else best) t) ∈ vp :=
          tournamentDraws_mem h hr _ hmem0
        rw [hvp] at hmem
        exact (List.mem_filter.mp hmem).2
      · exact tournamentFold_mem t ts
      · exact tournamentFold_max t ts

/-- Witness for C8: on the two-chromosome evaluated population `popR` with
tournament size 1 and ambient draws 0, selection returns an evaluated
maximal drawn chromosome. -/
theorem tournamentSelect_spec_witness :
    popR.filter (fun c => c.fitness.isSome) ≠ [] ∧
    (∃ c, tournamentSelect popR 1 (fun _ => 0) = Except.ok c ∧
      c.fitness.isSome = true ∧
      c ∈ tournamentDraws (popR.filter (fun c => c.fitness.isSome)) 1 (fun _ => 0) ∧
      ∀ d ∈ tournamentDraws (popR.filter (fun c => c.fitness.isSome)) 1 (fun _ => 0),
        fitGt d c = false) :=
  ⟨by simp [popR, cEval1, cEval2],
   (tournamentSelect_spec popR 1 (fun _ => 0) (by norm_num)
      (fun i => ⟨le_refl 0, by norm_num⟩)).2 (by simp [popR, cEval1, cEval2])⟩

/-- C5: the selection primitive's result depends on the ambient
`Math.random` stream — two runs on the identical population and
tournament size give different results under different ambient draws, so
no fixed-seed reproducibility exists in the code as written. -/
theorem tournamentSelect_ambient_randomness :
    tournamentSelect popR 1 (fun _ => 0) ≠ tournamentSelect popR 1 (fun _ => 1/2) := by
  norm_num [tournamentSelect, tournamentDraws, popR, cEval1, cEval2, fitGt,
    rat_floor_eq_intFloor]

/-! ### Engine-state invariants for C7 and C9 -/

theorem checkCompoundLimit_ok (config : BacktestConfig) (s : EngineState)
    (h : StateOK s) : StateOK (checkCompoundLimit config s) := by
  unfold checkCompoundLimit
  split_ifs <;> exact h

theorem executeExit_ok (config : BacktestConfig) (exitPrice ts : ℚ)
    (reason : ExitReason) (s : EngineState) (h : StateOK s)
    (hp : reason = ExitReason.STOP_LOSS ∨ 0 ≤ exitPrice) :
    StateOK (executeExit config exitPrice ts reason s) := by
  unfold executeExit
  rcases hpos : s.position with _ | pos
  · exact h
  · obtain ⟨hsh, heq⟩ := h
    have hshares : 0 ≤ pos.shares := hsh pos hpos
    apply checkCompoundLimit_ok
    have hfep0 : 0 ≤ (if reason = ExitReason.STOP_LOSS then
        max (exitPrice * (1 - config.slippage)) 0.01 else exitPrice) := by
      split_ifs with hst
      · calc (0 : ℚ) ≤ 0.01 := by norm_num
        _ ≤ max (exitPrice * (1 - config.slippage)) 0.01 := le_max_right _ _
      · rcases hp with h | h
        · exact absurd h hst
        · exact h
    refine ⟨?_, ?_⟩
    · intro pos' hpos'
      simp at hpos'
    · intro p hp'
      simp only [List.mem_append, List.mem_singleton] at hp'
      rcases hp' with hp' | rfl
      · exact heq p hp'
      · exact mul_nonneg hfep0 hshares

theorem executeEntry_ok (config : BacktestConfig) (tick : PriceTick)
    (market : HistoricalMarket) (side : Side) (s : EngineState) (h : StateOK s)
    (hbal : 0 ≤ s.balance) (hask : 0 ≤ tick.bestAsk) (hslip : 0 ≤ config.slippage) :
    StateOK (executeEntry config tick market side s) := by
  obtain ⟨hsh, heq⟩ := h
  unfold executeEntry
  refine ⟨?_, heq⟩
  intro pos' hpos'
  simp only [Option.some.injEq] at hpos'
  subst hpos'
  simp only
  apply div_nonneg hbal
  apply le_min
  · exact mul_nonneg hask (by linarith)
  · norm_num

theorem checkEntry_ok (config : BacktestConfig) (tick : PriceTick)
    (market : HistoricalMarket) (s : EngineState) (h : StateOK s)
    (hbal : 0 ≤ s.balance) (het : 0 ≤ config.entryThreshold)
    (hslip : 0 ≤ config.slippage) :
    StateOK (checkEntry config tick market s) := by
  simp only [checkEntry]
  by_cases h1 : market.endDateMs - tick.timestamp ≤ 0 ∨
      config.timeWindowMs < market.endDateMs - tick.timestamp
  · rw [if_pos h1]
    exact h
  · rw [if_neg h1]
    by_cases h2 : config.maxSpread < tick.bestAsk - tick.bestBid
    · rw [if_pos h2]
      exact h
    · rw [if_neg h2]
      by_cases h3 : tick.bestAsk < config.entryThreshold ∨
          config.maxEntryPrice < tick.bestAsk
      · rw [if_pos h3]
        exact h
      · rw [if_neg h3]
        by_cases h4 : config.profitTarget ≤ tick.bestAsk
        · rw [if_pos h4]
          exact h
        · rw [if_neg h4]
          push_neg at h3
          split_ifs <;>
            first
              | exact h
              | exact executeEntry_ok config tick market _ s h hbal
                  (by linarith [h3.1]) hslip

theorem checkStopLoss_ok (config : BacktestConfig) (tick : PriceTick)
    (s : EngineState) (h : StateOK s) : StateOK (checkStopLoss config tick s) := by
  unfold checkStopLoss
  rcases hpos : s.position with _ | pos
  · exact h
  · split_ifs with h1
    · exact executeExit_ok config _ _ _ s h (Or.inl rfl)
    · exact h

theorem processTick_ok (config : BacktestConfig) (tick : PriceTick)
    (market : HistoricalMarket) (s : EngineState) (h : StateOK s)
    (het : 0 ≤ config.entryThreshold) (hslip : 0 ≤ config.slippage)
    (hpt : 0 ≤ config.profitTarget) :
    StateOK (processTick config tick market s) := by
  rcases hpos : s.position with _ | pos
  · simp only [processTick, hpos]
    split_ifs with h1
    · exact checkEntry_ok config tick market s h (by linarith) het hslip
    · exact h
  · simp only [processTick, hpos]
    split_ifs with h1 h2
    · exact executeExit_ok config _ _ _ s h (Or.inr hpt)
    · exact checkStopLoss_ok config tick s h
    · exact h

theorem closePositionAtExpiry_ok (config : BacktestConfig)
    (market : HistoricalMarket) (s : EngineState) (h : StateOK s)
    (hpt : 0 ≤ config.profitTarget) :
    StateOK (closePositionAtExpiry config market s) := by
  rcases hpos : s.position with _ | pos
  · simp only [closePositionAtExpiry, hpos]
    exact h
  · rcases ho : market.outcome with _ | o <;>
      simp only [closePositionAtExpiry, hpos, ho]
    · exact executeExit_ok config _ _ _ s h (Or.inr hpt)
    · split_ifs with h1
      · exact executeExit_ok config _ _ _ s h (Or.inr hpt)
      · exact executeExit_ok config _ _ _ s h (Or.inr (by norm_num))

theorem expireOpenPosition_ok (config : BacktestConfig)
    (markets : List HistoricalMarket) (s : EngineState) (tick : PriceTick)
    (h : StateOK s) (hpt : 0 ≤ config.profitTarget) :
    StateOK (expireOpenPosition config markets s tick) := by
  rcases hpos : s.position with _ | pos
  · simp only [expireOpenPosition, hpos]
    exact h
  · simp only [expireOpenPosition, hpos]
    split_ifs with h1
    · exact h
    · rcases hlk : marketLookup markets pos.marketSlug with _ | pm <;> simp only [hlk]
      · exact h
      · split_ifs with h2
        · exact closePositionAtExpiry_ok config pm s h hpt
        · exact h

theorem stepTick_ok (config : BacktestConfig) (markets : List HistoricalMarket)
    (s : EngineState) (tm : PriceTick × HistoricalMarket) (h : StateOK s)
    (het : 0 ≤ config.entryThreshold) (hslip : 0 ≤ config.slippage)
    (hpt : 0 ≤ config.profitTarget) :
    StateOK (stepTick config markets s tm) := by
  simp only [stepTick]
  have h1 : StateOK (expireOpenPosition config markets s tm.1) :=
    expireOpenPosition_ok config markets s tm.1 h hpt
  set s1 := expireOpenPosition config markets s tm.1 with hs1
  split_ifs with ha hb
  · exact h1
  · rcases hp1 : s1.position with _ | pos <;> simp only [hp1]
    · refine ⟨?_, h1.2⟩
      intro pos hp
      simp at hp
    · split_ifs with hc
      · exact closePositionAtExpiry_ok config tm.2 s1 h1 hpt
      · exact h1
  · exact processTick_ok config tm.1 tm.2 _ h1 het hslip hpt

theorem checkCompoundLimit_aligned (config : BacktestConfig) (s : EngineState)
    (h : Aligned s) : Aligned (checkCompoundLimit config s) := by
  unfold checkCompoundLimit
  split_ifs <;> exact h

theorem executeExit_aligned (config : BacktestConfig) (exitPrice ts : ℚ)
    (reason : ExitReason) (s : EngineState) (h : Aligned s) :
    Aligned (executeExit config exitPrice ts reason s) := by
  unfold executeExit
  rcases hpos : s.position with _ | pos
  · exact h
  · apply checkCompoundLimit_aligned
    unfold Aligned at h ⊢
    simp [h]

theorem checkEntry_aligned (config : BacktestConfig) (tick : PriceTick)
    (market : HistoricalMarket) (s : EngineState) (h : Aligned s) :
    Aligned (checkEntry config tick market s) := by
  simp only [checkEntry]
  split_ifs <;> exact h

theorem checkStopLoss_aligned (config : BacktestConfig) (tick : PriceTick)
    (s : EngineState) (h : Aligned s) : Aligned (checkStopLoss config tick s) := by
  unfold checkStopLoss
  rcases hpos : s.position with _ | pos
  · exact h
  · split_ifs with h1
    · exact executeExit_aligned config _ _ _ s h
    · exact h

theorem processTick_aligned (config : BacktestConfig) (tick : PriceTick)
    (market : HistoricalMarket) (s : EngineState) (h : Aligned s) :
    Aligned (processTick config tick market s) := by
  rcases hpos : s.position with _ | pos <;> simp only [processTick, hpos]
  · split_ifs with h1
    · exact checkEntry_aligned config tick market s h
    · exact h
  · split_ifs with h1 h2
    · exact executeExit_aligned config _ _ _ s h
    · exact checkStopLoss_aligned config tick s h
    · exact h

theorem closePositionAtExpiry_aligned (config : BacktestConfig)
    (market : HistoricalMarket) (s : EngineState) (h : Aligned s) :
    Aligned (closePositionAtExpiry config market s) := by
  rcases hpos : s.position with _ | pos
  · simp only [closePositionAtExpiry, hpos]
    exact h
  · rcases ho : market.outcome with _ | o <;>
      simp only [closePositionAtExpiry, hpos, ho]
    · exact executeExit_aligned config _ _ _ s h
    · split_ifs with h1 <;> exact executeExit_aligned config _ _ _ s h

theorem expireOpenPosition_aligned (config : BacktestConfig)
    (markets : List HistoricalMarket) (s : EngineState) (tick : PriceTick)
    (h : Aligned s) : Aligned (expireOpenPosition config markets s tick) := by
  rcases hpos : s.position with _ | pos <;> simp only [expireOpenPosition, hpos]
  · exact h
  · split_ifs with h1
    · exact h
    · rcases hlk : marketLookup markets pos.marketSlug with _ | pm <;> simp only [hlk]
      · exact h
      · split_ifs with h2
        · exact closePositionAtExpiry_aligned config pm s h
        · exact h

theorem stepTick_aligned (config : BacktestConfig) (markets : List HistoricalMarket)
    (s : EngineState) (tm : PriceTick × HistoricalMarket) (h : Aligned s) :
    Aligned (stepTick config markets s tm) := by
  simp only [stepTick]
  have h1 : Aligned (expireOpenPosition config markets s tm.1) :=
    expireOpenPosition_aligned config markets s tm.1 h
  set s1 := expireOpenPosition config markets s tm.1 with hs1
  split_ifs with ha hb
  · exact h1
  · rcases hp1 : s1.position with _ | pos <;> simp only [hp1]
    · exact h1
    · split_ifs with hc
      · exact closePositionAtExpiry_aligned config tm.2 s1 h1
      · exact h1
  · exact processTick_aligned config tm.1 tm.2 _ h1

theorem foldl_stepTick_ok (config : BacktestConfig)
    (markets : List HistoricalMarket) (l : List (PriceTick × HistoricalMarket))
    (het : 0 ≤ config.entryThreshold) (hslip : 0 ≤ config.slippage)
    (hpt : 0 ≤ config.profitTarget) :
    ∀ s, StateOK s → StateOK (l.foldl (stepTick config markets) s) := by
  induction l with
  | nil => intro s h; exact h
  | cons tm rest ih =>
    intro s h
    exact ih _ (stepTick_ok config markets s tm h het hslip hpt)

theorem foldl_stepTick_aligned (config : BacktestConfig)
    (markets : List HistoricalMarket) (l : List (PriceTick × HistoricalMarket)) :
    ∀ s, Aligned s → Aligned (l.foldl (stepTick config markets) s) := by
  induction l with
  | nil => intro s h; exact h
  | cons tm rest ih =>
    intro s h
    exact ih _ (stepTick_aligned config markets s tm h)

/-- Every equity point produced by a run has a non-negative balance, for
configs with non-negative entry threshold, slippage and profit target. -/
theorem run_equity_nonneg (sqrtQ : ℚ → ℚ) (config : BacktestConfig)
    (markets : List HistoricalMarket) (het : 0 ≤ config.entryThreshold)
    (hslip : 0 ≤ config.slippage) (hpt : 0 ≤ config.profitTarget) :
    ∀ p ∈ (run sqrtQ config markets).equityCurve, 0 ≤ p.balance := by
  have hinit : StateOK (initialState config) :=
    ⟨fun pos hp => by simp [initialState] at hp,
     fun p hp => by simp [initialState] at hp⟩
  set s1 := ((markets.flatMap (fun m => m.priceTicks.map (fun t => (t, m)))).mergeSort
      (fun a b => a.1.timestamp ≤ b.1.timestamp)).foldl (stepTick config markets)
      (initialState config) with hs1
  have h1 : StateOK s1 :=
    foldl_stepTick_ok config markets _ het hslip hpt (initialState config) hinit
  have h2 : StateOK (match s1.position with
      | some pos =>
        (match marketLookup markets pos.marketSlug with
          | some m => closePositionAtExpiry config m s1
          | none => s1)
      | none => s1) := by
    rcases hsp : s1.position with _ | pos <;> simp only [hsp]
    · exact h1
    · rcases hlk : marketLookup markets pos.marketSlug with _ | m <;> simp only [hlk]
      · exact h1
      · exact closePositionAtExpiry_ok config m s1 h1 hpt
  intro p hp
  exact h2.2 p hp

/-- The run's equity curve is pointwise aligned with its trade log. -/
theorem run_aligned (sqrtQ : ℚ → ℚ) (config : BacktestConfig)
    (markets : List HistoricalMarket) :
    (run sqrtQ config markets).equityCurve.map (fun p => p.timestamp) =
      (run sqrtQ config markets).trades.map (fun t => t.exitTimestamp) := by
  have hinit : Aligned (initialState config) := rfl
  set s1 := ((markets.flatMap (fun m => m.priceTicks.map (fun t => (t, m)))).mergeSort
      (fun a b => a.1.timestamp ≤ b.1.timestamp)).foldl (stepTick config markets)
      (initialState config) with hs1
  have h1 : Aligned s1 :=
    foldl_stepTick_aligned config markets _ (initialState config) hinit
  have h2 : Aligned (match s1.position with
      | some pos =>
        (match marketLookup markets pos.marketSlug with
          | some m => closePositionAtExpiry config m s1
          | none => s1)
      | none => s1) := by
    rcases hsp : s1.position with _ | pos <;> simp only [hsp]
    · exact h1
    · rcases hlk : marketLookup markets pos.marketSlug with _ | m <;> simp only [hlk]
      · exact h1
      · exact closePositionAtExpiry_aligned config m s1 h1
  exact h2

theorem drawdownCurveAux_length (peak : ℚ) (l : List EquityPoint) :
    (drawdownCurveAux peak l).length = l.length := by
  induction l generalizing peak with
  | nil => rfl
  | cons p rest ih => simp [drawdownCurveAux, ih]

theorem calculateDrawdownCurve_length (config : BacktestConfig)
    (l : List EquityPoint) : (calculateDrawdownCurve config l).length = l.length := by
  unfold calculateDrawdownCurve
  split_ifs with h
  · simp [h]
  · exact drawdownCurveAux_length _ _

/-! ### C9 -/

/-- C9: every run returns trades, equity curve and drawdown curve of the
same length — one equity and one drawdown point per completed trade — and
the i-th equity point's timestamp equals the i-th trade's exit
timestamp. -/
theorem run_curves_aligned (sqrtQ : ℚ → ℚ) (config : BacktestConfig)
    (markets : List HistoricalMarket) :
    (run sqrtQ config markets).equityCurve.length =
      (run sqrtQ config markets).trades.length ∧
    (run sqrtQ config markets).drawdownCurve.length =
      (run sqrtQ config markets).trades.length ∧
    (run sqrtQ config markets).equityCurve.map (fun p => p.timestamp) =
      (run sqrtQ config markets).trades.map (fun t => t.exitTimestamp) := by
  have hm := run_aligned sqrtQ config markets
  have hlen : (run sqrtQ config markets).equityCurve.length =
      (run sqrtQ config markets).trades.length := by
    have := congrArg List.length hm
    simpa using this
  refine ⟨hlen, ?_, hm⟩
  have hdc : (run sqrtQ config markets).drawdownCurve =
      calculateDrawdownCurve config (run sqrtQ config markets).equityCurve := rfl
  rw [hdc, calculateDrawdownCurve_length, hlen]

/-! ### C10 -/

theorem win_loss_length (l : List BacktestTrade) :
    (l.filter (fun t => decide (0 < t.pnl))).length +
      (l.filter (fun t => decide (t.pnl ≤ 0))).length = l.length := by
  induction l with
  | nil => rfl
  | cons t rest ih =>
    by_cases h : (0 : ℚ) < t.pnl
    · simp [List.filter_cons, h, not_le.mpr h]
      omega
    · simp [List.filter_cons, h, not_lt.mp h]
      omega

/-- C10: each trade is a win exactly when `pnl > 0` and a loss otherwise,
so `wins + losses = totalTrades`, and a zero-PnL trade lands in the loss
set (whose cardinality is the loss count and the `avgLoss` denominator and
whose PnL sum is the gross loss). -/
theorem calculateMetrics_win_loss_partition (sqrtQ : ℚ → ℚ)
    (config : BacktestConfig) (trades : List BacktestTrade)
    (equityCurve : List EquityPoint) :
    (calculateMetrics sqrtQ config trades equityCurve).wins +
      (calculateMetrics sqrtQ config trades equityCurve).losses =
      (calculateMetrics sqrtQ config trades equityCurve).totalTrades ∧
    (calculateMetrics sqrtQ config trades equityCurve).wins =
      (trades.filter (fun t => decide (0 < t.pnl))).length ∧
    (calculateMetrics sqrtQ config trades equityCurve).losses =
      (trades.filter (fun t => decide (t.pnl ≤ 0))).length ∧
    ∀ t ∈ trades, t.pnl = 0 → t ∈ trades.filter (fun t => decide (t.pnl ≤ 0)) := by
  refine ⟨win_loss_length trades, rfl, rfl, ?_⟩
  intro t ht hz
  rw [List.mem_filter]
  exact ⟨ht, by simp [hz]⟩

/-- Witness for C10 on a concrete one-trade log whose only trade has
`pnl = 0`: the trade is classified as a loss. -/
theorem calculateMetrics_win_loss_partition_witness :
    ((calculateMetrics (fun _ => 0) cfg0 tradesZ []).wins +
      (calculateMetrics (fun _ => 0) cfg0 tradesZ []).losses =
      (calculateMetrics (fun _ => 0) cfg0 tradesZ []).totalTrades) ∧
    tradeZero ∈ tradesZ ∧
    tradeZero ∈ tradesZ.filter (fun t => decide (t.pnl ≤ 0)) :=
  ⟨(calculateMetrics_win_loss_partition (fun _ => 0) cfg0 tradesZ []).1,
   by simp [tradesZ],
   (calculateMetrics_win_loss_partition (fun _ => 0) cfg0 tradesZ []).2.2.2
     tradeZero (by simp [tradesZ]) rfl⟩

/-! ### C7 -/

theorem calculateMetrics_winRate_mem (sqrtQ : ℚ → ℚ) (config : BacktestConfig)
    (trades : List BacktestTrade) (equityCurve : List EquityPoint) :
    0 ≤ (calculateMetrics sqrtQ config trades equityCurve).winRate ∧
    (calculateMetrics sqrtQ config trades equityCurve).winRate ≤ 1 := by
  have hwr : (calculateMetrics sqrtQ config trades equityCurve).winRate =
      if 0 < trades.length then
        (((trades.filter (fun t => decide (0 < t.pnl))).length : ℚ) / trades.length)
      else 0 := rfl
  rw [hwr]
  split_ifs with h
  · constructor
    · positivity
    · rw [div_le_one (by exact_mod_cast h)]
      exact_mod_cast List.length_filter_le _ _
  · norm_num

theorem calculateMetrics_profitFactor_iff (sqrtQ : ℚ → ℚ)
    (config : BacktestConfig) (trades : List BacktestTrade)
    (equityCurve : List EquityPoint) :
    ((calculateMetrics sqrtQ config trades equityCurve).profitFactor = none ↔
      grossLoss trades = 0 ∧ 0 < grossProfit trades) := by
  have hpf : (calculateMetrics sqrtQ config trades equityCurve).profitFactor =
      (if 0 < grossLoss trades then some (grossProfit trades / grossLoss trades)
       else if 0 < grossProfit trades then none
       else some 0) := rfl
  rw [hpf]
  have hgl : 0 ≤ grossLoss trades := abs_nonneg _
  by_cases h1 : 0 < grossLoss trades
  · rw [if_pos h1]
    simp only [reduceCtorEq, false_iff, not_and]
    intro hc
    rw [hc] at h1
    exact absurd h1 (lt_irrefl 0)
  · have hgl0 : grossLoss trades = 0 := le_antisymm (not_lt.mp h1) hgl
    rw [if_neg h1]
    by_cases h2 : 0 < grossProfit trades
    · rw [if_pos h2]
      simp [hgl0, h2]
    · rw [if_neg h2]
      simp [h2]

theorem maxDrawdownAux_bounds (curve : List EquityPoint) :
    ∀ (peak mdd mddp : ℚ), 0 ≤ mdd → 0 ≤ mddp → mddp ≤ 1 →
    (∀ p ∈ curve, 0 ≤ p.balance) →
    0 ≤ (maxDrawdownAux peak mdd mddp curve).2 ∧
      (maxDrawdownAux peak mdd mddp curve).2 ≤ 1 := by
  induction curve with
  | nil =>
    intro peak mdd mddp h1 h2 h3 _
    exact ⟨h2, h3⟩
  | cons p rest ih =>
    intro peak mdd mddp h1 h2 h3 hb
    have hbal : 0 ≤ p.balance := hb p (List.mem_cons_self _ _)
    have hrest : ∀ q ∈ rest, 0 ≤ q.balance :=
      fun q hq => hb q (List.mem_cons_of_mem _ hq)
    simp only [maxDrawdownAux]
    have hple : p.balance ≤ (if peak < p.balance then p.balance else peak) := by
      split_ifs with h
      · exact le_refl _
      · exact not_lt.mp h
    set peak' := if peak < p.balance then p.balance else peak with hpk
    have hdd0 : 0 ≤ peak' - p.balance := by linarith
    by_cases hgt : mdd < peak' - p.balance
    · rw [if_pos hgt]
      apply ih
      · exact hdd0
      · split_ifs with hp0
        · positivity
        · exact le_refl 0
      · split_ifs with hp0
        · rw [div_le_one hp0]
          linarith
        · norm_num
      · exact hrest
    · rw [if_neg hgt]
      exact ih peak' mdd mddp h1 h2 h3 hrest

/-- C7: for every run (under non-negative entry threshold, slippage and
profit target), the metrics satisfy: profit factor is `Infinity` iff the
gross loss is zero and the gross profit positive; the win rate lies in
`[0, 1]`; and the max-drawdown percentage lies in `[0, 1]`. -/
theorem run_metrics_invariants (sqrtQ : ℚ → ℚ) (config : BacktestConfig)
    (markets : List HistoricalMarket) (het : 0 ≤ config.entryThreshold)
    (hslip : 0 ≤ config.slippage) (hpt : 0 ≤ config.profitTarget) :
    ((run sqrtQ config markets).metrics.profitFactor = none ↔
      grossLoss (run sqrtQ config markets).trades = 0 ∧
      0 < grossProfit (run sqrtQ config markets).trades) ∧
    (0 ≤ (run sqrtQ config markets).metrics.winRate ∧
      (run sqrtQ config markets).metrics.winRate ≤ 1) ∧
    (0 ≤ (run sqrtQ config markets).metrics.maxDrawdownPercent ∧
      (run sqrtQ config markets).metrics.maxDrawdownPercent ≤ 1) := by
  have hmet : (run sqrtQ config markets).metrics =
      calculateMetrics sqrtQ config (run sqrtQ config markets).trades
        (run sqrtQ config markets).equityCurve := rfl
  rw [hmet]
  refine ⟨calculateMetrics_profitFactor_iff _ _ _ _,
    calculateMetrics_winRate_mem _ _ _ _, ?_⟩
  have hdd : (calculateMetrics sqrtQ config (run sqrtQ config markets).trades
      (run sqrtQ config markets).equityCurve).maxDrawdownPercent =
      (calculateMaxDrawdown config (run sqrtQ config markets).equityCurve).2 := rfl
  rw [hdd]
  unfold calculateMaxDrawdown
  split_ifs with h
  · norm_num
  · exact maxDrawdownAux_bounds _ _ 0 0 (le_refl 0) (le_refl 0) (by norm_num)
      (run_equity_nonneg sqrtQ config markets het hslip hpt)

/-- Witness for C7 at the default-valued config and an empty market list. -/
theorem run_metrics_invariants_witness :
    ((0 : ℚ) ≤ cfg0.entryThreshold ∧ (0 : ℚ) ≤ cfg0.slippage ∧
      (0 : ℚ) ≤ cfg0.profitTarget) ∧
    (((run (fun _ => 0) cfg0 []).metrics.profitFactor = none ↔
      grossLoss (run (fun _ => 0) cfg0 []).trades = 0 ∧
      0 < grossProfit (run (fun _ => 0) cfg0 []).trades) ∧
    (0 ≤ (run (fun _ => 0) cfg0 []).metrics.winRate ∧
      (run (fun _ => 0) cfg0 []).metrics.winRate ≤ 1) ∧
    (0 ≤ (run (fun _ => 0) cfg0 []).metrics.maxDrawdownPercent ∧
      (run (fun _ => 0) cfg0 []).metrics.maxDrawdownPercent ≤ 1)) :=
  ⟨⟨by norm_num [cfg0], by norm_num [cfg0], by norm_num [cfg0]⟩,
   run_metrics_invariants (fun _ => 0) cfg0 [] (by norm_num [cfg0])
     (by norm_num [cfg0]) (by norm_num [cfg0])⟩

end PB
